import Mathlib

/-!
Verification of the Selective-Repeat ARQ implementation in `sr.c`.

The C file implements the sender side (entity A: `A_output`, `A_input`,
`A_timerinterrupt`, `A_init`) and the receiver side (entity B: `B_input`,
`B_init`) of a Selective-Repeat protocol.  We give a shallow embedding:
each C entry point becomes a pure Lean function from the entity's state
(the file-scope `static` variables) and the event's argument to the new
state together with the list of emitted external actions (`tolayer3`,
`tolayer5`, `starttimer`, `stoptimer`).  C `int` fields that the code
keeps in `[0, SEQSPACE)` by reducing modulo `SEQSPACE` (`window_base`,
`A_nextseqnum`, `recv_base`) are embedded as `Fin 7`; `windowcount` is a
plain `Int` exactly as in C (the code never clamps it).  The two `while`
loops are embedded with explicit fuel equal to the array size; lemmas
`slideAux_guard_false` and `drainAux_guard_false` below show this fuel is
always sufficient (the loop guard is false at the returned state), so the
embedding agrees with the unbounded C loops.
-/

namespace SR

/-- `#define WINDOWSIZE 6` in sr.c. -/
def WINDOWSIZE : Nat := 6

/-- `#define SEQSPACE 7` in sr.c. -/
def SEQSPACE : Nat := 7

/-- `#define NOTINUSE (-1)` in sr.c. -/
def NOTINUSE : Int := -1

/-- `#define RECV_WINDOWSIZE 6` in sr.c. -/
def RECV_WINDOWSIZE : Nat := 6

/-- `struct pkt` of the emulator: seqnum, acknum, checksum and a 20-byte
payload.  The payload bytes are embedded as a list of integers (the C
code only ever reads the 20 `char` entries as `int`s). -/
structure Pkt where
  seqnum : Int
  acknum : Int
  checksum : Int
  payload : List Int
deriving DecidableEq, Repr

/-- `struct msg`: a 20-byte application-layer message. -/
structure Msg where
  data : List Int
deriving DecidableEq, Repr

/-- `ComputeChecksum` in sr.c: `seqnum + acknum + Σ payload[i]`.  The C
loop adds exactly the 20 payload characters; packets in this development
carry length-20 payload lists, for which the list sum is that same sum.
The `checksum` field itself is not read. -/
def ComputeChecksum (p : Pkt) : Int :=
  p.seqnum + p.acknum + p.payload.sum

/-- `IsCorrupted` in sr.c: true iff the stored checksum differs from the
recomputed one. -/
def IsCorrupted (p : Pkt) : Bool :=
  if p.checksum = ComputeChecksum p then false else true

/-- Reduce a natural number modulo `SEQSPACE = 7` into `Fin 7`; this is
the `% SEQSPACE` appearing throughout sr.c on nonnegative quantities. -/
def fin7 (n : Nat) : Fin 7 := ⟨n % 7, Nat.mod_lt n (by norm_num)⟩

/-- Reduce modulo `RECV_WINDOWSIZE = 6` into `Fin 6`. -/
def fin6 (n : Nat) : Fin 6 := ⟨n % 6, Nat.mod_lt n (by norm_num)⟩

/-- The slot `(window_base + i) % SEQSPACE` scanned by the sender loops. -/
def idx (b : Fin 7) (i : Nat) : Fin 7 := fin7 (b.val + i)

/-- The external actions the protocol code can emit: `tolayer3` (hand a
packet to the channel), `tolayer5` (deliver a payload to the
application), `starttimer(A/B, RTT)` and `stoptimer`. -/
inductive Action where
  | tolayer3 (p : Pkt)
  | tolayer5 (payload : List Int)
  | starttimer
  | stoptimer
deriving DecidableEq, Repr

/-- The zero-initialised `struct pkt` that C static arrays start with. -/
def pkt0 : Pkt := { seqnum := 0, acknum := 0, checksum := 0, payload := List.replicate 20 0 }

/-- The sender's file-scope state in sr.c: `buffer[SEQSPACE]`,
`acked[SEQSPACE]`, `window_base`, `windowcount`, `A_nextseqnum`, plus
the statistics counters the sender code writes (`window_full`,
`total_ACKs_received`, `new_ACKs`, `packets_resent`). -/
structure SenderState where
  buffer : Fin 7 → Pkt
  acked : Fin 7 → Bool
  window_base : Fin 7
  windowcount : Int
  A_nextseqnum : Fin 7
  window_full : Nat
  total_ACKs_received : Nat
  new_ACKs : Nat
  packets_resent : Nat
deriving DecidableEq

/-- Sender state right after static initialisation followed by `A_init`:
`A_nextseqnum = 0`, `windowcount = 0`, all `acked` flags false;
`window_base` and the counters start at their static value 0. -/
def A_initState : SenderState where
  buffer := fun _ => pkt0
  acked := fun _ => false
  window_base := 0
  windowcount := 0
  A_nextseqnum := 0
  window_full := 0
  total_ACKs_received := 0
  new_ACKs := 0
  packets_resent := 0

/-- The packet `A_output` builds: `seqnum = A_nextseqnum`,
`acknum = NOTINUSE`, payload copied from the message, and the checksum
computed over those fields (the C code fills `checksum` last, from the
already-set fields; `ComputeChecksum` does not read `checksum`). -/
def mkSendPkt (s : SenderState) (m : Msg) : Pkt :=
  let p : Pkt := { seqnum := (s.A_nextseqnum.val : Int), acknum := NOTINUSE,
                   checksum := 0, payload := m.data }
  { p with checksum := ComputeChecksum p }

/-- `A_output` in sr.c.  If `windowcount < WINDOWSIZE`: build the packet,
store it at `buffer[seqnum]`, clear its acked flag, increment
`windowcount`, transmit it, start the timer iff `windowcount == 1`
after the increment, and advance `A_nextseqnum` modulo `SEQSPACE`.
Otherwise only `window_full` is incremented. -/
def A_output (s : SenderState) (m : Msg) : SenderState × List Action :=
  if s.windowcount < (WINDOWSIZE : Int) then
    let sendpkt := mkSendPkt s m
    let s1 : SenderState := { s with
      buffer := Function.update s.buffer s.A_nextseqnum sendpkt,
      acked := Function.update s.acked s.A_nextseqnum false,
      windowcount := s.windowcount + 1 }
    ({ s1 with A_nextseqnum := s.A_nextseqnum + 1 },
     [Action.tolayer3 sendpkt] ++
       (if s1.windowcount = 1 then [Action.starttimer] else []))
  else
    ({ s with window_full := s.window_full + 1 }, [])

/-- Read `acked[x]` for a C `int` index `x`.  In sr.c the index is
`packet.acknum`; an index outside `[0, SEQSPACE)` would be an
out-of-bounds array access (undefined behaviour), which the embedding
totalises to `false`. -/
def ackedAt (a : Fin 7 → Bool) (x : Int) : Bool :=
  if h : 0 ≤ x ∧ x < 7 then a ⟨x.toNat, by omega⟩ else false

/-- Write `acked[x] = true` for a C `int` index `x`; out-of-range
indices (undefined behaviour in C) are totalised to a no-op. -/
def setAckedTrue (a : Fin 7 → Bool) (x : Int) : Fin 7 → Bool :=
  if h : 0 ≤ x ∧ x < 7 then Function.update a ⟨x.toNat, by omega⟩ true else a

/-- The in-window test of `A_input` exactly as written in sr.c:
`win_start = window_base`, `win_end = (window_base + WINDOWSIZE) % SEQSPACE`,
then a two-case comparison depending on whether the window wraps. -/
def codeInWindow (b : Fin 7) (ack : Int) : Bool :=
  let ws : Int := b.val
  let we : Int := ((b.val + WINDOWSIZE) % SEQSPACE : Nat)
  if ws < we then decide (ws ≤ ack) && decide (ack < we)
  else decide (ws ≤ ack) || decide (ack < we)

/-- The mathematical cyclic half-open window
`[window_base, window_base + WINDOWSIZE) (mod SEQSPACE)` used in the
specification's wording; compared against `codeInWindow` below. -/
def inWindow (b : Fin 7) (x : Int) : Prop :=
  ∃ i < WINDOWSIZE, x = ((b.val + i) % SEQSPACE : Nat)

instance (b : Fin 7) (x : Int) : Decidable (inWindow b x) := by
  unfold inWindow; infer_instance

/-- The slide loop of `A_input`:
`while (acked[window_base]) { acked[window_base] = false; window_base =
(window_base + 1) % SEQSPACE; windowcount--; }`, embedded with explicit
fuel on the triple `(window_base, windowcount, acked)`.
`slideAux_guard_false` shows fuel `SEQSPACE` always suffices. -/
def slideAux : Nat → Fin 7 × Int × (Fin 7 → Bool) → Fin 7 × Int × (Fin 7 → Bool)
  | 0, st => st
  | n + 1, (b, c, a) =>
    if a b then slideAux n (b + 1, c - 1, Function.update a b false)
    else (b, c, a)

/-- The timer-rearm scan at the end of `A_input`'s new-ack branch: the
`for` loop over `i < SEQSPACE` starts the timer (once, then breaks) iff
some `i` has `!acked[(window_base+i) % SEQSPACE] && i < windowcount`. -/
def rearmScan (b : Fin 7) (c : Int) (a : Fin 7 → Bool) : Bool :=
  (List.range SEQSPACE).any (fun i => !(a (idx b i)) && decide ((i : Int) < c))

/-- The new-ack branch of `A_input`: mark `acked[acknum]`, bump
`new_ACKs`, run the slide loop, then `stoptimer` followed by the rearm
scan. -/
def newAckStep (s : SenderState) (ack : Int) : SenderState × List Action :=
  let a1 := setAckedTrue s.acked ack
  let t := slideAux SEQSPACE (s.window_base, s.windowcount, a1)
  ({ s with acked := t.2.2, window_base := t.1, windowcount := t.2.1,
            new_ACKs := s.new_ACKs + 1 },
   Action.stoptimer :: (if rearmScan t.1 t.2.1 t.2.2 then [Action.starttimer] else []))

/-- `A_input` in sr.c.  Corrupted packets are ignored entirely.
Otherwise `total_ACKs_received` is incremented, then: out-of-window acks
return with no further change; duplicate acks do nothing; a new
in-window ack runs `newAckStep`. -/
def A_input (s : SenderState) (p : Pkt) : SenderState × List Action :=
  if IsCorrupted p then (s, [])
  else if codeInWindow s.window_base p.acknum = false then
    ({ s with total_ACKs_received := s.total_ACKs_received + 1 }, [])
  else if ackedAt s.acked p.acknum then
    ({ s with total_ACKs_received := s.total_ACKs_received + 1 }, [])
  else
    newAckStep { s with total_ACKs_received := s.total_ACKs_received + 1 } p.acknum

/-- `A_timerinterrupt` in sr.c: scan `i = 0 .. windowcount-1`; at the
first `i` with `!acked[(window_base+i) % SEQSPACE]`, retransmit
`buffer[seq]`, bump `packets_resent`, restart the timer and break. -/
def A_timerinterrupt (s : SenderState) : SenderState × List Action :=
  match (List.range s.windowcount.toNat).find?
      (fun i => !(s.acked (idx s.window_base i))) with
  | some i =>
      ({ s with packets_resent := s.packets_resent + 1 },
       [Action.tolayer3 (s.buffer (idx s.window_base i)), Action.starttimer])
  | none => (s, [])

/-- Sender states reachable from `A_init` by any sequence of the three
sender entry points. -/
inductive Reachable : SenderState → Prop
  | init : Reachable A_initState
  | output (m : Msg) {s : SenderState} : Reachable s → Reachable (A_output s m).1
  | input (p : Pkt) {s : SenderState} : Reachable s → Reachable (A_input s p).1
  | timer {s : SenderState} : Reachable s → Reachable (A_timerinterrupt s).1

/-- The receiver's file-scope state in sr.c: `recv_buffer`, `received`
(int flags, only ever 0/1), `recv_base`, `B_nextseqnum` (kept in `{0,1}`
by `% 2`), and the `packets_received` counter. -/
structure ReceiverState where
  recv_buffer : Fin 6 → Pkt
  received : Fin 6 → Bool
  recv_base : Fin 7
  B_nextseqnum : Fin 2
  packets_received : Nat
deriving DecidableEq

/-- Receiver state after static initialisation followed by `B_init`:
`recv_base = 0`, all `received` flags cleared, `B_nextseqnum = 1`. -/
def B_initState : ReceiverState where
  recv_buffer := fun _ => pkt0
  received := fun _ => false
  recv_base := 0
  B_nextseqnum := 1
  packets_received := 0

/-- The ack packet `B_input` builds: `seqnum = B_nextseqnum` (before its
increment), `acknum` echoing the incoming `seqnum`, payload all `'0'`
(ASCII 48), checksum computed last over those fields. -/
def mkAck (s : ReceiverState) (p : Pkt) : Pkt :=
  let q : Pkt := { seqnum := (s.B_nextseqnum.val : Int), acknum := p.seqnum,
                   checksum := 0, payload := List.replicate 20 48 }
  { q with checksum := ComputeChecksum q }

/-- `rel_pos = (seqnum - recv_base + SEQSPACE) % SEQSPACE` with C's
truncating `%` on `int` (`Int.tmod`). -/
def relPos (s : ReceiverState) (p : Pkt) : Int :=
  Int.tmod (p.seqnum - (s.recv_base.val : Int) + (SEQSPACE : Int)) (SEQSPACE : Int)

/-- The buffering stage of `B_input`: if the packet is uncorrupted and
`rel_pos < RECV_WINDOWSIZE` and the slot is empty, store the packet and
set the flag.  A negative `rel_pos` would be an out-of-bounds access in
C (possible only for negative `seqnum`); the embedding totalises that
case to the no-store branch. -/
def bufferStage (s : ReceiverState) (p : Pkt) : ReceiverState :=
  if h : IsCorrupted p = false ∧ 0 ≤ relPos s p ∧ relPos s p < (RECV_WINDOWSIZE : Int) then
    let j : Fin 6 := ⟨(relPos s p).toNat, by
      have h6 : (RECV_WINDOWSIZE : Int) = 6 := rfl
      omega⟩
    if s.received j then s
    else { s with recv_buffer := Function.update s.recv_buffer j p,
                  received := Function.update s.received j true }
  else s

/-- One iteration body of the drain loop of `B_input`: count the
delivery, shift `received` and `recv_buffer` left by one (the C `for`
loop `slot i ← slot i+1`; `recv_buffer[5]` is left as is), clear
`received[RECV_WINDOWSIZE-1]`, and advance `recv_base` modulo
`SEQSPACE`. -/
def shiftRecv (s : ReceiverState) : ReceiverState :=
  { s with
    packets_received := s.packets_received + 1,
    received := fun i => if h : i.val + 1 < 6 then s.received ⟨i.val + 1, h⟩ else false,
    recv_buffer := fun i => if h : i.val + 1 < 6 then s.recv_buffer ⟨i.val + 1, h⟩ else s.recv_buffer i,
    recv_base := s.recv_base + 1 }

/-- The drain loop of `B_input`: `while (received[0])`, deliver
`recv_buffer[0].payload` and shift, embedded with explicit fuel.
Returns the final state and the list of delivered payloads in order.
`drainAux_guard_false` shows fuel `RECV_WINDOWSIZE` always suffices. -/
def drainAux : Nat → ReceiverState → ReceiverState × List (List Int)
  | 0, s => (s, [])
  | n + 1, s =>
    if s.received 0 then
      let r := drainAux n (shiftRecv s)
      (r.1, (s.recv_buffer 0).payload :: r.2)
    else (s, [])

/-- `B_input` in sr.c: build the ack (from the pre-increment
`B_nextseqnum`, echoing the incoming `seqnum` in both branches),
increment `B_nextseqnum` mod 2, buffer the packet when eligible,
transmit the ack, then drain from slot 0. -/
def B_input (s : ReceiverState) (p : Pkt) : ReceiverState × List Action :=
  let ack := mkAck s p
  let s1 := { bufferStage s p with B_nextseqnum := s.B_nextseqnum + 1 }
  let r := drainAux RECV_WINDOWSIZE s1
  (r.1, Action.tolayer3 ack :: r.2.map Action.tolayer5)

/-- A concrete application message with every payload byte `v`. -/
def mkMsg (v : Int) : Msg := { data := List.replicate 20 v }

/-- A concrete uncorrupted ack packet for sequence number `k`
(checksum `0 + k + 0 = k` matches `ComputeChecksum`). -/
def ackFor (k : Int) : Pkt :=
  { seqnum := 0, acknum := k, checksum := k, payload := List.replicate 20 0 }

/-- A concrete corrupted packet: its stored checksum 1 differs from the
recomputed checksum 0. -/
def pktCorrupt : Pkt :=
  { seqnum := 0, acknum := 0, checksum := 1, payload := List.replicate 20 0 }

/-- Sender state after one admitted submission from the initial state. -/
def sOne : SenderState := (A_output A_initState (mkMsg 0)).1

/-- Sender state after submitting six messages `m0..m5` from the initial
state (the window-filling prefix of the spec's SR scenario). -/
def c4_s6 : SenderState :=
  (A_output (A_output (A_output (A_output (A_output (A_output A_initState
    (mkMsg 0)).1 (mkMsg 1)).1 (mkMsg 2)).1 (mkMsg 3)).1 (mkMsg 4)).1 (mkMsg 5)).1

/-- Sender state after then delivering uncorrupted acks for sequence
numbers 2, 0, 1 in that order. -/
def c4_final : SenderState :=
  (A_input (A_input (A_input c4_s6 (ackFor 2)).1 (ackFor 0)).1 (ackFor 1)).1

/-! ### Basic arithmetic facts about the cyclic index helpers -/

lemma fin7_val (b : Fin 7) : fin7 b.val = b := by
  unfold fin7
  exact Fin.ext (Nat.mod_eq_of_lt b.isLt)

lemma fin7_mod_add (x y : Nat) : fin7 (x % 7 + y) = fin7 (x + y) := by
  unfold fin7
  apply Fin.ext
  show (x % 7 + y) % 7 = (x + y) % 7
  omega

lemma idx_zero (b : Fin 7) : idx b 0 = b := by
  unfold idx
  rw [Nat.add_zero]
  exact fin7_val b

lemma idx_succ (b : Fin 7) (j : Nat) : idx (b + 1) j = idx b (j + 1) := by
  unfold idx
  have hval : (b + 1).val = (b.val + 1) % 7 := rfl
  rw [hval, fin7_mod_add]
  exact congrArg fin7 (by omega)

lemma idx_seven (b : Fin 7) : idx b 7 = b := by
  unfold idx fin7
  apply Fin.ext
  show (b.val + 7) % 7 = b.val
  omega

/-! ### The sender slide loop: postcondition and fuel sufficiency -/

/-- Characterisation of the slide loop `while (acked[window_base])` of
`A_input`: running `slideAux` with fuel `n` consumes some number `k ≤ n`
of leading acked slots: the base advances by `k` (mod `SEQSPACE`),
`windowcount` drops by `k`, exactly the consumed slots are cleared, each
consumed slot was acked, and if fuel remains the loop exited with the
guard false. -/
lemma slideAux_spec (n : Nat) : ∀ (b : Fin 7) (c : Int) (a : Fin 7 → Bool),
    ∃ k : Nat, k ≤ n ∧
      (slideAux n (b, c, a)).1 = idx b k ∧
      (slideAux n (b, c, a)).2.1 = c - k ∧
      (∀ x : Fin 7, (slideAux n (b, c, a)).2.2 x =
        if ∃ j < k, x = idx b j then false else a x) ∧
      (∀ j < k, a (idx b j) = true) ∧
      (k < n → (slideAux n (b, c, a)).2.2 ((slideAux n (b, c, a)).1) = false) := by
  induction n with
  | zero =>
    intro b c a
    refine ⟨0, le_refl 0, ?_, ?_, ?_, ?_, ?_⟩
    · exact (idx_zero b).symm
    · simp [slideAux]
    · intro x; simp [slideAux]
    · intro j hj; omega
    · intro h; omega
  | succ n ih =>
    intro b c a
    by_cases hab : a b = true
    · have hstep : slideAux (n + 1) (b, c, a)
          = slideAux n (b + 1, c - 1, Function.update a b false) := by
        simp [slideAux, hab]
      obtain ⟨k, hk, h1, h2, h3, h4, h5⟩ := ih (b + 1) (c - 1) (Function.update a b false)
      refine ⟨k + 1, by omega, ?_, ?_, ?_, ?_, ?_⟩
      · rw [hstep, h1, idx_succ]
      · rw [hstep, h2]; push_cast; ring
      · intro x
        rw [hstep, h3 x]
        by_cases hxb : x = b
        · have hc1 : ∃ j < k + 1, x = idx b j := ⟨0, by omega, by rw [hxb, idx_zero]⟩
          rw [if_pos hc1]
          by_cases hc2 : ∃ j < k, x = idx (b + 1) j
          · rw [if_pos hc2]
          · rw [if_neg hc2, hxb, Function.update_same]
        · have hiff : (∃ j < k, x = idx (b + 1) j) ↔ (∃ j < k + 1, x = idx b j) := by
            constructor
            · rintro ⟨j, hj, hx⟩
              exact ⟨j + 1, by omega, by rw [hx, idx_succ]⟩
            · rintro ⟨j, hj, hx⟩
              cases j with
              | zero => rw [idx_zero] at hx; exact absurd hx hxb
              | succ j => exact ⟨j, by omega, by rw [hx, idx_succ]⟩
          by_cases hc : ∃ j < k + 1, x = idx b j
          · rw [if_pos hc, if_pos (hiff.mpr hc)]
          · rw [if_neg hc, if_neg (fun h => hc (hiff.mp h)), Function.update_noteq hxb]
      · intro j hj
        cases j with
        | zero => rw [idx_zero]; exact hab
        | succ j =>
          have hj' := h4 j (by omega)
          rw [idx_succ] at hj'
          by_cases heq : idx b (j + 1) = b
          · rw [heq, Function.update_same] at hj'
            exact absurd hj' (by simp)
          · rwa [Function.update_noteq heq] at hj'
      · intro hlt
        rw [hstep]
        exact h5 (by omega)
    · have hstep : slideAux (n + 1) (b, c, a) = (b, c, a) := by
        simp [slideAux, hab]
      simp only [Bool.not_eq_true] at hab
      refine ⟨0, by omega, ?_, ?_, ?_, ?_, ?_⟩
      · rw [hstep]; exact (idx_zero b).symm
      · rw [hstep]; simp
      · intro x; rw [hstep]; simp
      · intro j hj; omega
      · intro _; rw [hstep]; exact hab

/-- Fuel `SEQSPACE` is always enough for the slide loop: at the returned
state the loop guard `acked[window_base]` is false, exactly as for the
unbounded C `while` loop. -/
lemma slideAux_guard_false (b : Fin 7) (c : Int) (a : Fin 7 → Bool) :
    (slideAux SEQSPACE (b, c, a)).2.2 ((slideAux SEQSPACE (b, c, a)).1) = false := by
  obtain ⟨k, hk, h1, h2, h3, h4, h5⟩ := slideAux_spec SEQSPACE b c a
  by_cases hlt : k < SEQSPACE
  · exact h5 hlt
  · have hk7 : k = 7 := by
      have : SEQSPACE = 7 := rfl
      omega
    subst hk7
    rw [h1, h3]
    have hcond : ∃ j < 7, idx b 7 = idx b j :=
      ⟨0, by omega, by rw [idx_zero, idx_seven]⟩
    rw [if_pos hcond]

/-- The slide loop never increases `windowcount`. -/
lemma slideAux_count_le (b : Fin 7) (c : Int) (a : Fin 7 → Bool) :
    (slideAux SEQSPACE (b, c, a)).2.1 ≤ c := by
  obtain ⟨k, _, _, h2, _, _, _⟩ := slideAux_spec SEQSPACE b c a
  rw [h2]
  omega

/-! ### The in-window test and the rearm scan -/

/-- For an ack value in `[0, SEQSPACE)`, the two-case comparison written
in `A_input` agrees with membership in the cyclic half-open window. -/
lemma codeInWindow_iff : ∀ b x : Fin 7,
    codeInWindow b (x.val : Int) = true ↔ inWindow b (x.val : Int) := by
  decide

lemma codeInWindow_iff_int (b : Fin 7) (x : Int) (h0 : 0 ≤ x) (h7 : x < 7) :
    codeInWindow b x = true ↔ inWindow b x := by
  have hx : x = (((⟨x.toNat, by omega⟩ : Fin 7)).val : Int) := by
    simp [Int.toNat_of_nonneg h0]
  rw [hx]
  exact codeInWindow_iff b _

/-- When `windowcount ≤ 6`, the rearm scan of `A_input` starts the timer
iff some slot among the first `windowcount` window positions is still
unacked. -/
lemma rearmScan_iff (b : Fin 7) (c : Int) (a : Fin 7 → Bool) (hc : c ≤ 6) :
    rearmScan b c a = true ↔ ∃ i < c.toNat, a (idx b i) = false := by
  unfold rearmScan
  rw [List.any_eq_true]
  constructor
  · rintro ⟨i, hi, hpred⟩
    rw [List.mem_range] at hi
    simp only [Bool.and_eq_true, Bool.not_eq_true', decide_eq_true_eq] at hpred
    exact ⟨i, by omega, hpred.1⟩
  · rintro ⟨i, hi, hai⟩
    refine ⟨i, ?_, ?_⟩
    · rw [List.mem_range]
      have : SEQSPACE = 7 := rfl
      omega
    · simp only [Bool.and_eq_true, Bool.not_eq_true', decide_eq_true_eq]
      exact ⟨hai, by omega⟩

/-! ### The sender invariant -/

/-- Invariant of all reachable sender states: `windowcount` never
exceeds `WINDOWSIZE`, and the slot at `window_base` is never marked
acked. -/
def InvA (s : SenderState) : Prop :=
  s.windowcount ≤ (WINDOWSIZE : Int) ∧ s.acked s.window_base = false

lemma invA_init : InvA A_initState := by
  constructor
  · show (0 : Int) ≤ (WINDOWSIZE : Int)
    norm_num [WINDOWSIZE]
  · rfl

lemma invA_output (s : SenderState) (m : Msg) (ih : InvA s) : InvA (A_output s m).1 := by
  obtain ⟨ih1, ih2⟩ := ih
  by_cases h : s.windowcount < (WINDOWSIZE : Int)
  · constructor
    · simp only [A_output, if_pos h]
      show s.windowcount + 1 ≤ (WINDOWSIZE : Int)
      omega
    · simp only [A_output, if_pos h]
      show Function.update s.acked s.A_nextseqnum false s.window_base = false
      by_cases hb : s.window_base = s.A_nextseqnum
      · rw [hb, Function.update_same]
      · rw [Function.update_noteq hb]
        exact ih2
  · constructor
    · simp only [A_output, if_neg h]
      exact ih1
    · simp only [A_output, if_neg h]
      exact ih2

lemma invA_input (s : SenderState) (p : Pkt) (ih : InvA s) : InvA (A_input s p).1 := by
  obtain ⟨ih1, ih2⟩ := ih
  unfold A_input
  by_cases hcor : IsCorrupted p = true
  · rw [if_pos hcor]
    exact ⟨ih1, ih2⟩
  · rw [if_neg hcor]
    by_cases hwin : codeInWindow s.window_base p.acknum = false
    · rw [if_pos hwin]
      exact ⟨ih1, ih2⟩
    · rw [if_neg hwin]
      by_cases hdup : ackedAt s.acked p.acknum = true
      · rw [if_pos hdup]
        exact ⟨ih1, ih2⟩
      · rw [if_neg hdup]
        unfold newAckStep
        constructor
        · show (slideAux SEQSPACE _).2.1 ≤ (WINDOWSIZE : Int)
          calc (slideAux SEQSPACE (s.window_base, s.windowcount,
                  setAckedTrue s.acked p.acknum)).2.1
              ≤ s.windowcount := slideAux_count_le _ _ _
            _ ≤ (WINDOWSIZE : Int) := ih1
        · exact slideAux_guard_false _ _ _

lemma invA_timer (s : SenderState) (ih : InvA s) : InvA (A_timerinterrupt s).1 := by
  obtain ⟨ih1, ih2⟩ := ih
  unfold A_timerinterrupt
  cases hf : (List.range s.windowcount.toNat).find?
      (fun i => !(s.acked (idx s.window_base i))) with
  | none => exact ⟨ih1, ih2⟩
  | some i => exact ⟨ih1, ih2⟩

/-- Every reachable sender state satisfies the invariant. -/
lemma reachable_inv {s : SenderState} (hs : Reachable s) : InvA s := by
  induction hs with
  | init => exact invA_init
  | output m hr ih => exact invA_output _ m ih
  | input p hr ih => exact invA_input _ p ih
  | timer hr ih => exact invA_timer _ ih

/-! ### The receiver drain loop: postcondition and fuel sufficiency -/

lemma fin6_mk (j : Nat) (h : j < 6) : fin6 j = ⟨j, h⟩ :=
  Fin.ext (Nat.mod_eq_of_lt h)

lemma fin6_zero : fin6 0 = (0 : Fin 6) := rfl

lemma shiftRecv_received_nat (s : ReceiverState) (j : Nat) (hj : j < 6) :
    (shiftRecv s).received (fin6 j)
      = if j + 1 < 6 then s.received (fin6 (j + 1)) else false := by
  rw [fin6_mk j hj]
  show (if h : j + 1 < 6 then s.received ⟨j + 1, h⟩ else false) = _
  by_cases h1 : j + 1 < 6
  · rw [dif_pos h1, if_pos h1, fin6_mk (j + 1) h1]
  · rw [dif_neg h1, if_neg h1]

lemma shiftRecv_buffer_nat (s : ReceiverState) (j : Nat) (hj : j < 6) :
    (shiftRecv s).recv_buffer (fin6 j)
      = if j + 1 < 6 then s.recv_buffer (fin6 (j + 1)) else s.recv_buffer (fin6 j) := by
  rw [fin6_mk j hj]
  show (if h : j + 1 < 6 then s.recv_buffer ⟨j + 1, h⟩ else s.recv_buffer ⟨j, hj⟩) = _
  by_cases h1 : j + 1 < 6
  · rw [dif_pos h1, if_pos h1, fin6_mk (j + 1) h1]
  · rw [dif_neg h1, if_neg h1]

/-- Characterisation of the drain loop `while (received[0])` of
`B_input`: some number `k` of leading occupied slots is drained; each
drained slot was occupied, the loop exits with the guard false when fuel
remains, `recv_base` advances by `k` (mod `SEQSPACE`), the slot arrays
are shifted left by `k` with vacated flags cleared, and the delivered
payloads are exactly those of slots `0..k-1` in order. -/
lemma drainAux_spec (n : Nat) : ∀ s : ReceiverState,
    ∃ k : Nat, k ≤ n ∧
      (∀ j < k, j < 6 ∧ s.received (fin6 j) = true) ∧
      (k < n → 6 ≤ k ∨ s.received (fin6 k) = false) ∧
      (drainAux n s).1.recv_base = fin7 (s.recv_base.val + k) ∧
      (drainAux n s).1.packets_received = s.packets_received + k ∧
      (∀ j : Nat, j < 6 → (drainAux n s).1.received (fin6 j)
        = if j + k < 6 then s.received (fin6 (j + k)) else false) ∧
      (∀ j : Nat, j + k < 6 →
        (drainAux n s).1.recv_buffer (fin6 j) = s.recv_buffer (fin6 (j + k))) ∧
      (drainAux n s).2 = (List.range k).map (fun j => (s.recv_buffer (fin6 j)).payload) := by
  induction n with
  | zero =>
    intro s
    refine ⟨0, le_refl 0, ?_, ?_, ?_, ?_, ?_, ?_, ?_⟩
    · intro j hj; omega
    · intro h; omega
    · show s.recv_base = fin7 (s.recv_base.val + 0)
      rw [Nat.add_zero, fin7_val]
    · simp [drainAux]
    · intro j hj
      show s.received (fin6 j) = _
      rw [Nat.add_zero, if_pos hj]
    · intro j hj
      show s.recv_buffer (fin6 j) = _
      rw [Nat.add_zero]
    · simp [drainAux]
  | succ n ih =>
    intro s
    by_cases h0 : s.received 0 = true
    · have hstep1 : (drainAux (n + 1) s).1 = (drainAux n (shiftRecv s)).1 := by
        simp [drainAux, h0]
      have hstep2 : (drainAux (n + 1) s).2
          = (s.recv_buffer 0).payload :: (drainAux n (shiftRecv s)).2 := by
        simp [drainAux, h0]
      obtain ⟨k, hk, hpre, hexit, hbase, hcnt, hrecv, hbuf, hdel⟩ := ih (shiftRecv s)
      refine ⟨k + 1, by omega, ?_, ?_, ?_, ?_, ?_, ?_, ?_⟩
      · intro j hj
        cases j with
        | zero => exact ⟨by omega, by rw [fin6_zero]; exact h0⟩
        | succ j =>
          obtain ⟨hj6, hjt⟩ := hpre j (by omega)
          rw [shiftRecv_received_nat s j hj6] at hjt
          by_cases hj1 : j + 1 < 6
          · rw [if_pos hj1] at hjt
            exact ⟨hj1, hjt⟩
          · rw [if_neg hj1] at hjt
            exact absurd hjt (by simp)
      · intro hk1
        rcases hexit (by omega) with h | h
        · left; omega
        · by_cases hk6 : k < 6
          · rw [shiftRecv_received_nat s k hk6] at h
            by_cases hk16 : k + 1 < 6
            · right; rw [if_pos hk16] at h; exact h
            · left; omega
          · left; omega
      · rw [hstep1, hbase]
        have hsb : (shiftRecv s).recv_base = s.recv_base + 1 := rfl
        have hval : (s.recv_base + 1).val = (s.recv_base.val + 1) % 7 := rfl
        rw [hsb, hval, fin7_mod_add]
        exact congrArg fin7 (by omega)
      · rw [hstep1, hcnt]
        show s.packets_received + 1 + k = s.packets_received + (k + 1)
        omega
      · intro j hj
        rw [hstep1, hrecv j hj]
        by_cases hjk : j + k < 6
        · rw [if_pos hjk, shiftRecv_received_nat s (j + k) hjk]
          have he : j + k + 1 = j + (k + 1) := by omega
          rw [he]
        · rw [if_neg hjk, if_neg (by omega)]
      · intro j hjk1
        rw [hstep1, hbuf j (by omega), shiftRecv_buffer_nat s (j + k) (by omega),
          if_pos (by omega)]
        have he : j + k + 1 = j + (k + 1) := by omega
        rw [he]
      · rw [hstep2, hdel, List.range_succ_eq_map, List.map_cons, List.map_map]
        congr 1
        apply List.map_congr_left
        intro j hj
        rw [List.mem_range] at hj
        obtain ⟨hj6, hjt⟩ := hpre j hj
        rw [shiftRecv_received_nat s j hj6] at hjt
        by_cases hj1 : j + 1 < 6
        · show ((shiftRecv s).recv_buffer (fin6 j)).payload = _
          rw [shiftRecv_buffer_nat s j hj6, if_pos hj1]
          rfl
        · rw [if_neg hj1] at hjt
          exact absurd hjt (by simp)
    · have hstep : drainAux (n + 1) s = (s, []) := by
        simp [drainAux, h0]
      simp only [Bool.not_eq_true] at h0
      refine ⟨0, by omega, ?_, ?_, ?_, ?_, ?_, ?_, ?_⟩
      · intro j hj; omega
      · intro _
        right
        rw [fin6_zero]
        exact h0
      · rw [hstep]
        show s.recv_base = fin7 (s.recv_base.val + 0)
        rw [Nat.add_zero, fin7_val]
      · rw [hstep]
        show s.packets_received = s.packets_received + 0
        omega
      · intro j hj
        rw [hstep]
        show s.received (fin6 j) = _
        rw [Nat.add_zero, if_pos hj]
      · intro j hj
        rw [hstep]
        show s.recv_buffer (fin6 j) = _
        rw [Nat.add_zero]
      · rw [hstep]
        simp

/-- Fuel `RECV_WINDOWSIZE` is always enough for the drain loop: at the
returned state the loop guard `received[0]` is false, exactly as for the
unbounded C `while` loop. -/
lemma drainAux_guard_false (s : ReceiverState) :
    (drainAux RECV_WINDOWSIZE s).1.received 0 = false := by
  obtain ⟨k, hk, hpre, hexit, hbase, hcnt, hrecv, hbuf, hdel⟩ :=
    drainAux_spec RECV_WINDOWSIZE s
  have h6 : RECV_WINDOWSIZE = 6 := rfl
  rw [← fin6_zero, hrecv 0 (by omega)]
  by_cases hk6 : k < 6
  · rw [if_pos (by omega)]
    rcases hexit (by omega) with h | h
    · omega
    · rw [Nat.zero_add]
      exact h
  · rw [if_neg (by omega)]

/-! ### Branch-shape lemmas for `A_input` and `B_input` -/

lemma A_input_newack (s : SenderState) (p : Pkt) (hc : IsCorrupted p = false)
    (hcw : codeInWindow s.window_base p.acknum = true)
    (hnew : ackedAt s.acked p.acknum = false) :
    A_input s p =
      newAckStep { s with total_ACKs_received := s.total_ACKs_received + 1 } p.acknum := by
  unfold A_input
  rw [if_neg (by rw [hc]; simp), if_neg (by rw [hcw]; simp), if_neg (by rw [hnew]; simp)]

lemma newAckStep_eq (s : SenderState) (ack : Int) :
    newAckStep s ack =
      ({ s with
          acked := (slideAux SEQSPACE (s.window_base, s.windowcount, setAckedTrue s.acked ack)).2.2,
          window_base := (slideAux SEQSPACE (s.window_base, s.windowcount, setAckedTrue s.acked ack)).1,
          windowcount := (slideAux SEQSPACE (s.window_base, s.windowcount, setAckedTrue s.acked ack)).2.1,
          new_ACKs := s.new_ACKs + 1 },
       Action.stoptimer ::
         (if rearmScan
              (slideAux SEQSPACE (s.window_base, s.windowcount, setAckedTrue s.acked ack)).1
              (slideAux SEQSPACE (s.window_base, s.windowcount, setAckedTrue s.acked ack)).2.1
              (slideAux SEQSPACE (s.window_base, s.windowcount, setAckedTrue s.acked ack)).2.2
           then [Action.starttimer] else [])) := rfl

lemma bufferStage_base (s : ReceiverState) (p : Pkt) :
    (bufferStage s p).recv_base = s.recv_base := by
  unfold bufferStage
  split
  · dsimp only
    split
    · rfl
    · rfl
  · rfl

/-! ### C2: the window bound -/

/-- C2: in every sender state reachable from `A_init` by any sequence of
`A_output`, `A_input` and `A_timerinterrupt` calls, `windowcount` never
exceeds `WINDOWSIZE`. -/
theorem windowcount_le_WINDOWSIZE (s : SenderState) (hs : Reachable s) :
    s.windowcount ≤ (WINDOWSIZE : Int) :=
  (reachable_inv hs).1

/-- Witness for C2 at the initial state. -/
theorem windowcount_le_WINDOWSIZE_witness :
    A_initState.windowcount ≤ (WINDOWSIZE : Int) :=
  windowcount_le_WINDOWSIZE A_initState Reachable.init

/-! ### C10: the base slot of a non-empty window is never acked -/

/-- C10 (implicit invariant): in every reachable sender state with
`windowcount > 0`, the slot at `window_base` is not marked acked, and
hence the timeout scan over the first `windowcount` window positions
finds an unacked slot. -/
theorem base_slot_unacked (s : SenderState) (hs : Reachable s)
    (hpos : 0 < s.windowcount) :
    s.acked s.window_base = false ∧
    ∃ i < s.windowcount.toNat, s.acked (idx s.window_base i) = false := by
  have h := (reachable_inv hs).2
  refine ⟨h, 0, by omega, ?_⟩
  rw [idx_zero]
  exact h

/-- Witness for C10 at the reachable state with one outstanding packet. -/
theorem base_slot_unacked_witness :
    sOne.acked sOne.window_base = false ∧
    ∃ i < sOne.windowcount.toNat, sOne.acked (idx sOne.window_base i) = false :=
  base_slot_unacked sOne (Reachable.output (mkMsg 0) Reachable.init) (by decide)

/-! ### C1: a timeout retransmits exactly one packet -/

/-- C1: on a timer interrupt in any reachable sender state with at least
one outstanding packet, exactly one packet is retransmitted — the first
unacked one, which sits at `window_base` — and the timer is restarted;
the full window is never resent.  The emitted actions are exactly one
`tolayer3` followed by one `starttimer`, and only the `packets_resent`
counter changes. -/
theorem timeout_resends_one_packet (s : SenderState) (hs : Reachable s)
    (hpos : 0 < s.windowcount) :
    A_timerinterrupt s =
      ({ s with packets_resent := s.packets_resent + 1 },
       [Action.tolayer3 (s.buffer s.window_base), Action.starttimer]) := by
  have hb := (reachable_inv hs).2
  have hfind : (List.range s.windowcount.toNat).find?
      (fun i => !(s.acked (idx s.window_base i))) = some 0 := by
    have hn : s.windowcount.toNat = (s.windowcount.toNat - 1) + 1 := by omega
    rw [hn, List.range_succ_eq_map]
    apply List.find?_cons_of_pos
    rw [idx_zero, hb]
    rfl
  unfold A_timerinterrupt
  rw [hfind]
  show ({ s with packets_resent := s.packets_resent + 1 },
        [Action.tolayer3 (s.buffer (idx s.window_base 0)), Action.starttimer]) = _
  rw [idx_zero]

/-- Witness for C1 at the reachable state with one outstanding packet. -/
theorem timeout_resends_one_packet_witness :
    A_timerinterrupt sOne =
      ({ sOne with packets_resent := sOne.packets_resent + 1 },
       [Action.tolayer3 (sOne.buffer sOne.window_base), Action.starttimer]) :=
  timeout_resends_one_packet sOne (Reachable.output (mkMsg 0) Reachable.init) (by decide)

/-! ### C6: corrupted packets are ignored -/

/-- C6: for every packet whose checksum does not match, `A_input` leaves
the whole sender state unchanged and emits no transmit or timer action. -/
theorem corrupted_ack_ignored (s : SenderState) (p : Pkt)
    (hc : IsCorrupted p = true) :
    A_input s p = (s, []) := by
  unfold A_input
  rw [if_pos hc]

/-- Witness for C6 at a concrete corrupted packet. -/
theorem corrupted_ack_ignored_witness :
    A_input A_initState pktCorrupt = (A_initState, []) :=
  corrupted_ack_ignored A_initState pktCorrupt (by decide)

/-! ### C5: out-of-window acks are ignored -/

/-- C5: an uncorrupted ack whose (in-range) acknum lies outside the
cyclic send window `[window_base, window_base + WINDOWSIZE)` leaves
`window_base`, `windowcount`, the acked flags and the packet buffer
unchanged and issues no timer command.  (Only the
`total_ACKs_received` statistic is incremented.) -/
theorem out_of_window_ack_ignored (s : SenderState) (p : Pkt)
    (hc : IsCorrupted p = false) (h0 : 0 ≤ p.acknum)
    (h7 : p.acknum < (SEQSPACE : Int))
    (hout : ¬ inWindow s.window_base p.acknum) :
    (A_input s p).1.window_base = s.window_base ∧
    (A_input s p).1.windowcount = s.windowcount ∧
    (A_input s p).1.acked = s.acked ∧
    (A_input s p).1.buffer = s.buffer ∧
    (A_input s p).2 = [] := by
  have h7' : p.acknum < 7 := by
    have : ((SEQSPACE : Nat) : Int) = 7 := rfl
    omega
  have hwin : codeInWindow s.window_base p.acknum = false := by
    cases hcw : codeInWindow s.window_base p.acknum with
    | false => rfl
    | true =>
        exact absurd ((codeInWindow_iff_int s.window_base p.acknum h0 h7').mp hcw) hout
  have hA : A_input s p =
      ({ s with total_ACKs_received := s.total_ACKs_received + 1 }, []) := by
    unfold A_input
    rw [if_neg (by rw [hc]; simp), if_pos hwin]
  rw [hA]
  exact ⟨rfl, rfl, rfl, rfl, rfl⟩

/-- Witness for C5: ack 6 is outside the initial window `[0, 6)`. -/
theorem out_of_window_ack_ignored_witness :
    (A_input A_initState (ackFor 6)).1.window_base = A_initState.window_base ∧
    (A_input A_initState (ackFor 6)).1.windowcount = A_initState.windowcount ∧
    (A_input A_initState (ackFor 6)).1.acked = A_initState.acked ∧
    (A_input A_initState (ackFor 6)).1.buffer = A_initState.buffer ∧
    (A_input A_initState (ackFor 6)).2 = [] :=
  out_of_window_ack_ignored A_initState (ackFor 6) (by decide) (by decide) (by decide)
    (by decide)

/-! ### C7: admission and rejection in `A_output` -/

/-- C7: when `windowcount < WINDOWSIZE`, `A_output` builds a packet with
`seqnum = A_nextseqnum`, `acknum = NOTINUSE`, the payload copied from
the message and a checksum equal to `ComputeChecksum` of the packet
itself; stores it at buffer slot `seqnum` marked unacked; increments
`windowcount`; transmits it; starts the timer iff `windowcount` is 1
after the increment; and advances `A_nextseqnum` modulo `SEQSPACE`.
When `windowcount ≥ WINDOWSIZE` the message is rejected: only the
`window_full` counter changes and nothing is transmitted. -/
theorem A_output_spec (s : SenderState) (m : Msg) :
    ((WINDOWSIZE : Int) ≤ s.windowcount →
      A_output s m = ({ s with window_full := s.window_full + 1 }, [])) ∧
    (s.windowcount < (WINDOWSIZE : Int) →
      (A_output s m).1.buffer s.A_nextseqnum = mkSendPkt s m ∧
      (mkSendPkt s m).seqnum = (s.A_nextseqnum.val : Int) ∧
      (mkSendPkt s m).acknum = NOTINUSE ∧
      (mkSendPkt s m).payload = m.data ∧
      (mkSendPkt s m).checksum = ComputeChecksum (mkSendPkt s m) ∧
      (A_output s m).1.acked s.A_nextseqnum = false ∧
      (A_output s m).1.windowcount = s.windowcount + 1 ∧
      (A_output s m).1.A_nextseqnum = s.A_nextseqnum + 1 ∧
      (A_output s m).2 = Action.tolayer3 (mkSendPkt s m) ::
        (if s.windowcount + 1 = 1 then [Action.starttimer] else [])) := by
  constructor
  · intro h
    unfold A_output
    rw [if_neg (by omega)]
  · intro h
    have hA1 : (A_output s m).1 =
        { s with
          buffer := Function.update s.buffer s.A_nextseqnum (mkSendPkt s m),
          acked := Function.update s.acked s.A_nextseqnum false,
          windowcount := s.windowcount + 1,
          A_nextseqnum := s.A_nextseqnum + 1 } := by
      unfold A_output
      rw [if_pos h]
    have hA2 : (A_output s m).2 = Action.tolayer3 (mkSendPkt s m) ::
        (if s.windowcount + 1 = 1 then [Action.starttimer] else []) := by
      unfold A_output
      rw [if_pos h]
      rfl
    refine ⟨?_, rfl, rfl, rfl, rfl, ?_, ?_, ?_, hA2⟩
    · rw [hA1]
      exact Function.update_same _ _ _
    · rw [hA1]
      exact Function.update_same _ _ _
    · rw [hA1]
    · rw [hA1]

/-- Witness for C7: the first submission from the initial state is
admitted and increments the window count. -/
theorem A_output_spec_witness :
    (A_output A_initState (mkMsg 0)).1.windowcount = A_initState.windowcount + 1 :=
  ((A_output_spec A_initState (mkMsg 0)).2 (by decide)).2.2.2.2.2.2.1

/-! ### C3: a new in-window ack marks, slides, and re-arms the timer -/

/-- C3: when `A_input` receives an uncorrupted, in-window,
not-previously-acked acknowledgment, it marks the sequence number acked
and then slides: some number `k` of leading marked slots is consumed,
each of which was marked acked; `window_base` advances by `k` modulo
`SEQSPACE`; `windowcount` drops by `k`; the consumed slots are cleared
and all other slots keep their marked value; the loop stops with the
slot at the new `window_base` unacked; and the emitted timer commands
are a `stoptimer` followed by a `starttimer` if and only if some slot
among the first `windowcount` window positions from the new
`window_base` is still unacked. -/
theorem new_ack_slides_and_rearms (s : SenderState) (p : Pkt) (hs : Reachable s)
    (hc : IsCorrupted p = false) (h0 : 0 ≤ p.acknum)
    (h7 : p.acknum < (SEQSPACE : Int))
    (hwin : inWindow s.window_base p.acknum)
    (hnew : ackedAt s.acked p.acknum = false) :
    ∃ k ≤ SEQSPACE,
      (∀ j < k, setAckedTrue s.acked p.acknum (idx s.window_base j) = true) ∧
      (A_input s p).1.window_base = idx s.window_base k ∧
      (A_input s p).1.windowcount = s.windowcount - k ∧
      (∀ j < k, (A_input s p).1.acked (idx s.window_base j) = false) ∧
      (∀ x : Fin 7, (∀ j < k, x ≠ idx s.window_base j) →
        (A_input s p).1.acked x = setAckedTrue s.acked p.acknum x) ∧
      (A_input s p).1.acked ((A_input s p).1.window_base) = false ∧
      ((∃ i < (A_input s p).1.windowcount.toNat,
          (A_input s p).1.acked (idx (A_input s p).1.window_base i) = false) →
        (A_input s p).2 = [Action.stoptimer, Action.starttimer]) ∧
      (¬ (∃ i < (A_input s p).1.windowcount.toNat,
          (A_input s p).1.acked (idx (A_input s p).1.window_base i) = false) →
        (A_input s p).2 = [Action.stoptimer]) := by
  have h7' : p.acknum < 7 := by
    have : ((SEQSPACE : Nat) : Int) = 7 := rfl
    omega
  have hcw : codeInWindow s.window_base p.acknum = true :=
    (codeInWindow_iff_int s.window_base p.acknum h0 h7').mpr hwin
  rw [A_input_newack s p hc hcw hnew, newAckStep_eq]
  dsimp only
  obtain ⟨k, hk, h1, h2, h3, h4, h5⟩ :=
    slideAux_spec SEQSPACE s.window_base s.windowcount (setAckedTrue s.acked p.acknum)
  have hguard := slideAux_guard_false s.window_base s.windowcount (setAckedTrue s.acked p.acknum)
  have hc6 : (slideAux SEQSPACE (s.window_base, s.windowcount,
      setAckedTrue s.acked p.acknum)).2.1 ≤ 6 := by
    have hle := slideAux_count_le s.window_base s.windowcount (setAckedTrue s.acked p.acknum)
    have hw := (reachable_inv hs).1
    have : ((WINDOWSIZE : Nat) : Int) = 6 := rfl
    omega
  refine ⟨k, hk, h4, h1, h2, ?_, ?_, hguard, ?_, ?_⟩
  · intro j hj
    rw [h3 (idx s.window_base j), if_pos ⟨j, hj, rfl⟩]
  · intro x hx
    rw [h3 x, if_neg ?_]
    rintro ⟨j, hj, hxj⟩
    exact hx j hj hxj
  · intro hEx
    have hr : rearmScan (slideAux SEQSPACE (s.window_base, s.windowcount,
        setAckedTrue s.acked p.acknum)).1
        (slideAux SEQSPACE (s.window_base, s.windowcount, setAckedTrue s.acked p.acknum)).2.1
        (slideAux SEQSPACE (s.window_base, s.windowcount, setAckedTrue s.acked p.acknum)).2.2
        = true :=
      (rearmScan_iff _ _ _ hc6).mpr hEx
    rw [if_pos hr]
  · intro hEx
    have hr : ¬ (rearmScan (slideAux SEQSPACE (s.window_base, s.windowcount,
        setAckedTrue s.acked p.acknum)).1
        (slideAux SEQSPACE (s.window_base, s.windowcount, setAckedTrue s.acked p.acknum)).2.1
        (slideAux SEQSPACE (s.window_base, s.windowcount, setAckedTrue s.acked p.acknum)).2.2
        = true) := by
      intro hcon
      exact hEx ((rearmScan_iff _ _ _ hc6).mp hcon)
    rw [if_neg hr]

/-- Witness for C3: ack 0 arriving at the reachable one-packet state. -/
theorem new_ack_slides_and_rearms_witness :
    ∃ k ≤ SEQSPACE,
      (∀ j < k, setAckedTrue sOne.acked (ackFor 0).acknum (idx sOne.window_base j) = true) ∧
      (A_input sOne (ackFor 0)).1.window_base = idx sOne.window_base k ∧
      (A_input sOne (ackFor 0)).1.windowcount = sOne.windowcount - k ∧
      (∀ j < k, (A_input sOne (ackFor 0)).1.acked (idx sOne.window_base j) = false) ∧
      (∀ x : Fin 7, (∀ j < k, x ≠ idx sOne.window_base j) →
        (A_input sOne (ackFor 0)).1.acked x = setAckedTrue sOne.acked (ackFor 0).acknum x) ∧
      (A_input sOne (ackFor 0)).1.acked ((A_input sOne (ackFor 0)).1.window_base) = false ∧
      ((∃ i < (A_input sOne (ackFor 0)).1.windowcount.toNat,
          (A_input sOne (ackFor 0)).1.acked (idx (A_input sOne (ackFor 0)).1.window_base i) = false) →
        (A_input sOne (ackFor 0)).2 = [Action.stoptimer, Action.starttimer]) ∧
      (¬ (∃ i < (A_input sOne (ackFor 0)).1.windowcount.toNat,
          (A_input sOne (ackFor 0)).1.acked (idx (A_input sOne (ackFor 0)).1.window_base i) = false) →
        (A_input sOne (ackFor 0)).2 = [Action.stoptimer]) :=
  new_ack_slides_and_rearms sOne (ackFor 0) (Reachable.output (mkMsg 0) Reachable.init)
    (by decide) (by decide) (by decide) (by decide) (by decide)

/-! ### C8: `B_input` always transmits exactly one echoing ack -/

/-- C8: for every incoming packet — corrupted or out-of-window included
— `B_input` transmits exactly one acknowledgment packet; its `acknum`
equals the incoming packet's `seqnum` field and its checksum equals
`ComputeChecksum` of the ack packet itself.  (All remaining actions are
`tolayer5` deliveries, never further transmissions.) -/
theorem B_input_always_acks (s : ReceiverState) (p : Pkt) :
    ∃ a rest, (B_input s p).2 = Action.tolayer3 a :: rest ∧
      a.acknum = p.seqnum ∧
      a.checksum = ComputeChecksum a ∧
      ∀ q : Pkt, Action.tolayer3 q ∉ rest := by
  refine ⟨mkAck s p,
    (drainAux RECV_WINDOWSIZE
      { bufferStage s p with B_nextseqnum := s.B_nextseqnum + 1 }).2.map Action.tolayer5,
    rfl, rfl, rfl, ?_⟩
  intro q hq
  rw [List.mem_map] at hq
  obtain ⟨pay, _, heq⟩ := hq
  exact Action.noConfusion heq

/-- Witness for C8 at a concrete corrupted incoming packet: the ack is
still transmitted and echoes the (possibly garbage) `seqnum`. -/
theorem B_input_always_acks_witness :
    ∃ a rest, (B_input B_initState pktCorrupt).2 = Action.tolayer3 a :: rest ∧
      a.acknum = pktCorrupt.seqnum ∧
      a.checksum = ComputeChecksum a ∧
      ∀ q : Pkt, Action.tolayer3 q ∉ rest :=
  B_input_always_acks B_initState pktCorrupt

/-! ### C9: `B_input` drains strictly from slot 0 -/

/-- C9: after buffering, `B_input` drains strictly from slot 0: some
number `k` of leading occupied slots is delivered in order (each drained
slot held a received packet, so delivery happens only from the
contiguous front of the receive window, and if the loop stopped early
slot `k` was empty); the remaining slots are shifted left by `k` with
the vacated flags cleared, and `recv_base` advances by `k` modulo
`SEQSPACE`. -/
theorem B_input_drains_from_slot_zero (s : ReceiverState) (p : Pkt) :
    ∃ k ≤ RECV_WINDOWSIZE,
      (∀ j < k, (bufferStage s p).received (fin6 j) = true) ∧
      (k < RECV_WINDOWSIZE → (bufferStage s p).received (fin6 k) = false) ∧
      (B_input s p).2 = Action.tolayer3 (mkAck s p) ::
        (List.range k).map
          (fun j => Action.tolayer5 (((bufferStage s p).recv_buffer (fin6 j)).payload)) ∧
      (B_input s p).1.recv_base = fin7 (s.recv_base.val + k) ∧
      (∀ j : Nat, j < 6 → (B_input s p).1.received (fin6 j)
        = if j + k < 6 then (bufferStage s p).received (fin6 (j + k)) else false) ∧
      (∀ j : Nat, j + k < 6 →
        (B_input s p).1.recv_buffer (fin6 j) = (bufferStage s p).recv_buffer (fin6 (j + k))) := by
  obtain ⟨k, hk, hpre, hexit, hbase, hcnt, hrecv, hbuf, hdel⟩ :=
    drainAux_spec RECV_WINDOWSIZE { bufferStage s p with B_nextseqnum := s.B_nextseqnum + 1 }
  have h6 : RECV_WINDOWSIZE = 6 := rfl
  refine ⟨k, hk, ?_, ?_, ?_, ?_, ?_, ?_⟩
  · intro j hj
    exact (hpre j hj).2
  · intro hkW
    rcases hexit (by omega) with h | h
    · omega
    · exact h
  · show Action.tolayer3 (mkAck s p) ::
      (drainAux RECV_WINDOWSIZE
        { bufferStage s p with B_nextseqnum := s.B_nextseqnum + 1 }).2.map Action.tolayer5 = _
    rw [hdel, List.map_map]
    rfl
  · exact hbase.trans (congrArg (fun b => fin7 (b.val + k)) (bufferStage_base s p))
  · intro j hj
    exact hrecv j hj
  · intro j hj
    exact hbuf j hj

/-- Witness for C9 at a concrete in-window packet arriving at the
initial receiver state. -/
theorem B_input_drains_from_slot_zero_witness :
    ∃ k ≤ RECV_WINDOWSIZE,
      (∀ j < k, (bufferStage B_initState (ackFor 0)).received (fin6 j) = true) ∧
      (k < RECV_WINDOWSIZE →
        (bufferStage B_initState (ackFor 0)).received (fin6 k) = false) ∧
      (B_input B_initState (ackFor 0)).2 = Action.tolayer3 (mkAck B_initState (ackFor 0)) ::
        (List.range k).map
          (fun j => Action.tolayer5
            (((bufferStage B_initState (ackFor 0)).recv_buffer (fin6 j)).payload)) ∧
      (B_input B_initState (ackFor 0)).1.recv_base
        = fin7 (B_initState.recv_base.val + k) ∧
      (∀ j : Nat, j < 6 → (B_input B_initState (ackFor 0)).1.received (fin6 j)
        = if j + k < 6 then (bufferStage B_initState (ackFor 0)).received (fin6 (j + k))
          else false) ∧
      (∀ j : Nat, j + k < 6 →
        (B_input B_initState (ackFor 0)).1.recv_buffer (fin6 j)
          = (bufferStage B_initState (ackFor 0)).recv_buffer (fin6 (j + k))) :=
  B_input_drains_from_slot_zero B_initState (ackFor 0)

/-! ### C4: the out-of-order ack scenario (corrected) -/

/-- C4 counterexample: in the spec scenario (`WINDOWSIZE = 6`,
`SEQSPACE = 7`, submit `m0..m5`, then deliver uncorrupted acks for 2, 0,
1), the sender's base does NOT slide to 2: it slides to 3, because the
slide loop also consumes the already-marked slot 2. -/
theorem scenario_base_not_two :
    c4_final.window_base = (3 : Fin 7) ∧ ¬ (c4_final.window_base = (2 : Fin 7)) := by
  decide

/-- C4 amended: in that scenario the base slides to 3 (past the
already-marked seq 2), `windowcount` drops by 3 in total (from 6 to 3),
and an immediately following `A_output` submission is admitted without
requiring seq 2's ack a second time: it transmits and raises
`windowcount` to 4 while `window_full` stays unchanged. -/
theorem scenario_slides_past_marked :
    c4_s6.windowcount = 6 ∧
    c4_final.window_base = (3 : Fin 7) ∧
    c4_final.windowcount = 3 ∧
    (A_output c4_final (mkMsg 6)).1.windowcount = 4 ∧
    (A_output c4_final (mkMsg 6)).1.window_full = c4_final.window_full ∧
    (A_output c4_final (mkMsg 6)).2 ≠ [] := by
  decide

end SR
